import Mathlib

/-!
# Verification of the directory-tool tree walker against its specification

Shallow embedding of `src/main.c`: the best-match accumulator
(`update_latest_file`), the filter predicates (`is_after_date`,
`is_excluded`), path joining (`snprintf` into a 1024-byte buffer with a
hard-coded backslash), the recursive directory walk (`recurse_dir`), the
option parser (`parse_options`) and the reporting logic of `main`.

Timestamps (`time_t`) are modelled as `Int`.  The filesystem is modelled as
a finite tree of entries; per-entry `stat` results and per-directory
`opendir` results carry explicit success/failure so that the error-handling
claims can be stated.  Diagnostics written to `stderr` are modelled as a log
of strings, and the list of directories the walker calls itself on is
recorded so that traversal claims can be stated.
-/

namespace DirTool

/-- `struct LatestFileInfo` from `src/main.c`: the best-match accumulator.
`path = none` models the `NULL` pointer. -/
structure LatestFileInfo where
  path : Option String
  time : Int
  deriving DecidableEq, Repr

/-- `struct LatestFileInfo latest = {NULL, 0};` (line 165 of `src/main.c`). -/
def latestEmpty : LatestFileInfo := ⟨none, 0⟩

/-- `new_time = ctime > mtime ? ctime : mtime` (line 22 of `src/main.c`):
the effective time of an entry, the later of metadata-change and
content-modification time. -/
def effTime (ctime mtime : Int) : Int := if ctime > mtime then ctime else mtime

/-- `update_latest_file` from `src/main.c` lines 21-34.  `allocOk` models
whether the `malloc` call succeeds; the second component of the result
records whether the allocation-failure diagnostic was printed. -/
def update_latest_file (latest : LatestFileInfo) (path : String) (ctime mtime : Int)
    (allocOk : Bool) : LatestFileInfo × Bool :=
  let new_time : Int := effTime ctime mtime
  if latest.path = none ∨ new_time > latest.time then
    if allocOk then ({ path := some path, time := new_time }, false)
    else (latest, true)
  else (latest, false)

/-- Modelled from the spec: `is_after_date` in `src/main.c` (lines 94-107) is
malformed C — it passes a `const char *` and a `time_t *` to `strftime` with
three arguments and hands the `time_t` to `mktime` — so its date-parsing path
has no defined semantics.  Section 4.3 of the spec defines the intended
contract: the cutoff string is parsed to a timestamp at local-time midnight
and the predicate returns whether `file_time` is greater than or equal to
that timestamp.  Here `cutoff_time` is that already-parsed timestamp. -/
def is_after_date (file_time cutoff_time : Int) : Bool :=
  decide (file_time ≥ cutoff_time)

/-- `strstr(hay, needle) != NULL` on `char` lists: scans successive suffixes
of `hay` for one having `needle` as a prefix.  An empty `needle` succeeds
immediately, exactly as C's `strstr` returns `hay` itself. -/
def strstr_found : List Char → List Char → Bool
  | [], needle => needle.isPrefixOf []
  | c :: t, needle => needle.isPrefixOf (c :: t) || strstr_found t needle

/-- `is_excluded` from `src/main.c` lines 109-112:
`return strstr(filename, pattern) != NULL;`. -/
def is_excluded (filename pattern : String) : Bool :=
  strstr_found filename.data pattern.data

/-- `struct ProgramOptions` as the walk consumes it.  `beforeDate` holds the
already-parsed cutoff timestamp (see `is_after_date`); `none` models the
`NULL` pointers left by `parse_options` when `-b`/`-e` are absent. -/
structure ProgramOptions where
  basePath : String
  beforeDate : Option Int
  excludePattern : Option String
  verbose : Bool
  deriving Repr

/-- The guard of line 141 of `src/main.c`:
`options->beforeDate != NULL && is_after_date(statbuf.st_mtime, options->beforeDate)`.
When it is `true` the entry is skipped (`continue`). -/
def dateSkip (opts : ProgramOptions) (mtime : Int) : Bool :=
  match opts.beforeDate with
  | none => false
  | some cutoff => is_after_date mtime cutoff

/-- The guard of line 146 of `src/main.c`:
`options->excludePattern != NULL && is_excluded(dp->d_name, options->excludePattern)`.
When it is `true` the entry is skipped (`continue`). -/
def nameSkip (opts : ProgramOptions) (name : String) : Bool :=
  match opts.excludePattern with
  | none => false
  | some pat => is_excluded name pat

/-- Line 132 of `src/main.c`:
`snprintf(path, sizeof(path), "%s\\%s", basePath, dp->d_name)` with
`char path[1024]` — the base path and entry name joined by a hard-coded
backslash, truncated to at most 1023 characters (one byte is reserved for
the terminating `NUL`). -/
def joinPath (base name : String) : String :=
  ⟨(base.data ++ '\\' :: name.data).take 1023⟩

/-- A filesystem entry as `recurse_dir` observes it through `readdir`,
`stat` and `opendir`.  `stat? = none` models a failing `stat` call; for a
directory, `openOk = false` models a failing `opendir` on it. -/
inductive FSEntry : Type where
  | file (name : String) (stat? : Option (Int × Int))
  | dir (name : String) (stat? : Option (Int × Int)) (openOk : Bool)
      (children : List FSEntry)
  deriving Repr

/-- The observable state threaded through the walk: the accumulator, the
`stderr` diagnostics emitted so far, and (ghost instrumentation, not source
state) the list of paths `recurse_dir` has been invoked on. -/
structure WalkState where
  latest : LatestFileInfo
  log : List String
  entered : List String
  deriving DecidableEq, Repr

/-- The state at the start of `main`'s walk. -/
def initState : WalkState := ⟨latestEmpty, [], []⟩

mutual

/-- The body of the `while ((dp = readdir(dir)))` loop of `recurse_dir`
(`src/main.c` lines 125-157) for a single entry: skip `.` and `..`, build
the full path, `stat` it (logging and continuing on failure), apply the
date filter, apply the exclusion filter, offer the surviving entry to the
accumulator, then recurse if the entry is a directory.  The recursive call
on a directory is the body of `recurse_dir` inlined, with its return value
discarded exactly as at line 155 of the source. -/
def recurse_entry (base : String) (opts : ProgramOptions) (st : WalkState) :
    FSEntry → WalkState
  | .file name stat? =>
    if name = "." ∨ name = ".." then st
    else
      let path := joinPath base name
      match stat? with
      | none =>
          { st with log := st.log ++ ["Error: Cannot get the file information of " ++ path] }
      | some (ctime, mtime) =>
          if dateSkip opts mtime then st
          else if nameSkip opts name then st
          else { st with latest := (update_latest_file st.latest path ctime mtime true).1 }
  | .dir name stat? openOk children =>
    if name = "." ∨ name = ".." then st
    else
      let path := joinPath base name
      match stat? with
      | none =>
          { st with log := st.log ++ ["Error: Cannot get the file information of " ++ path] }
      | some (ctime, mtime) =>
          if dateSkip opts mtime then st
          else if nameSkip opts name then st
          else
            let st1 :=
              { st with latest := (update_latest_file st.latest path ctime mtime true).1 }
            let st2 := { st1 with entered := st1.entered ++ [path] }
            if openOk then recurse_entries path opts st2 children
            else { st2 with log := st2.log ++ ["Error: Cannot open " ++ path] }

/-- The `readdir` loop of `recurse_dir`: process the entries in order. -/
def recurse_entries (base : String) (opts : ProgramOptions) (st : WalkState) :
    List FSEntry → WalkState
  | [] => st
  | e :: es => recurse_entries base opts (recurse_entry base opts st e) es

end

/-- `recurse_dir` from `src/main.c` lines 114-161.  `openOk` and `children`
are what `opendir`/`readdir` observe at `basePath`.  The invocation is
recorded in `entered`; on `opendir` failure the diagnostic of line 121 is
logged and `1` returned, otherwise the entries are processed and `0`
returned.  `recurse_entry` inlines exactly this body at its recursive
call. -/
def recurse_dir (basePath : String) (openOk : Bool) (children : List FSEntry)
    (opts : ProgramOptions) (st : WalkState) : WalkState × Int :=
  let st' := { st with entered := st.entered ++ [basePath] }
  if openOk then
    (recurse_entries basePath opts st' children, 0)
  else
    ({ st' with log := st'.log ++ ["Error: Cannot open " ++ basePath] }, 1)

/-! ## The accumulator viewed as a fold over the stream of offered candidates

A candidate is what line 150 of `src/main.c` hands to `update_latest_file`:
a path together with the entry's `st_ctime` and `st_mtime`. -/

/-- A candidate offered to the accumulator: `(path, (ctime, mtime))`. -/
abbrev Cand := String × Int × Int

/-- The effective time of a candidate. -/
def effOf (c : Cand) : Int := effTime c.2.1 c.2.2

/-- One call `update_latest_file(&latest, path, ctime, mtime)` with the
allocation succeeding, keeping only the accumulator state. -/
def offer (l : LatestFileInfo) (c : Cand) : LatestFileInfo :=
  (update_latest_file l c.1 c.2.1 c.2.2 true).1

/-- A finite sequence of calls to `update_latest_file`, in order. -/
def offerAll (l : LatestFileInfo) (cs : List Cand) : LatestFileInfo :=
  cs.foldl offer l

/-- The running maximum of the candidates' effective times, started at `t`. -/
def runMax (t : Int) (cs : List Cand) : Int :=
  cs.foldl (fun a c => max a (effOf c)) t

/-- The maximum effective time among a list of candidates (`0`, the
accumulator's initial `time`, for the empty list). -/
def maxEff : List Cand → Int
  | [] => 0
  | c :: cs => runMax (effOf c) cs

/-! ## `main`'s reporting and exit logic -/

/-- The condition of line 175 of `src/main.c`:
`latest.path != NULL && latest.time != 0` — only then is the best match
printed; otherwise `main` prints `"No file found"`. -/
def prints_path (latest : LatestFileInfo) : Bool :=
  latest.path.isSome && latest.time != 0

/-- The walk-and-report phase of `main` (lines 172-186): run `recurse_dir`
on the root (ignoring its return value, as the source does), then either
report the best match `(path, effective time)` or report nothing
(`"No file found"`), and return exit status `0` in both cases.  The result
is `(printed best match or none, exit status, final walk state)`. -/
def main_run (rootOpenOk : Bool) (rootChildren : List FSEntry)
    (opts : ProgramOptions) : Option (String × Int) × Int × WalkState :=
  let st := (recurse_dir opts.basePath rootOpenOk rootChildren opts initState).1
  (if prints_path st.latest then some (st.latest.path.getD "", st.latest.time) else none,
   0, st)

/-! ## Option parsing (`parse_options`, lines 53-92) and `main`'s exit code

`getopt` is external; its output is modelled as the list of recognised
tokens it yields: `'h'`, `'?'` (any unrecognised option), or one of
`'p'`/`'b'`/`'e'` with its argument, or `'v'`. -/

/-- One token yielded by `getopt(argc, argv, "hp:b:e:v")`. -/
inductive CliTok : Type where
  | h | q
  | p (s : String) | b (s : String) | e (s : String) | v
  deriving DecidableEq, Repr

/-- The string-level options `parse_options` fills in. -/
structure CliOptions where
  basePath : Option String
  beforeDate : Option String
  excludePattern : Option String
  verbose : Bool
  deriving DecidableEq, Repr

/-- The zero-initialisation at lines 55-58 of `src/main.c`. -/
def cliInit : CliOptions := ⟨none, none, none, false⟩

/-- `parse_options` from `src/main.c` lines 53-92: `'h'` and `'?'` print
usage and return `0` immediately; the other options update the struct; after
the loop a missing `-p` path returns `1`, otherwise `2`. -/
def parse_options : List CliTok → CliOptions → Int × CliOptions
  | [], o => if o.basePath = none then (1, o) else (2, o)
  | .h :: _, o => (0, o)
  | .q :: _, o => (0, o)
  | .p s :: ts, o => parse_options ts { o with basePath := some s }
  | .b s :: ts, o => parse_options ts { o with beforeDate := some s }
  | .e s :: ts, o => parse_options ts { o with excludePattern := some s }
  | .v :: ts, o => parse_options ts { o with verbose := true }

/-- The exit status of `main` as a function of the parsed command line
(lines 167-170 and 186 of `src/main.c`).  When `parse_options` returns
anything other than `2`, line 169 executes `return result = 0 ? 0 : 1;`,
which by C precedence is `return (result = (0 ? 0 : 1));`, i.e. it assigns
`1` to `result` and returns `1`.  When it returns `2` the walk runs and
`main` falls through to `return 0;`. -/
def main_exit (args : List CliTok) : Int :=
  if (parse_options args cliInit).1 ≠ 2 then 1 else 0

/-! ## Spec-side definitions, for refinement comparisons only -/

/-- From the spec (§4.1 step 3): the full path of an entry is the parent
path and the entry name joined by the platform's path separator `sep`. -/
def joinPath_spec (sep : Char) (base name : String) : String :=
  base ++ ⟨[sep]⟩ ++ name

/-! ## Helper lemmas about the accumulator -/

theorem effTime_eq_max (c m : Int) : effTime c m = max c m := by
  unfold effTime
  rcases le_or_lt c m with h | h
  · rw [if_neg (not_lt.2 h), max_eq_right h]
  · rw [if_pos h, max_eq_left h.le]

theorem offer_none (t : Int) (c : Cand) : offer ⟨none, t⟩ c = ⟨some c.1, effOf c⟩ := by
  simp [offer, update_latest_file, effOf, effTime]

theorem offer_some (p : String) (t : Int) (c : Cand) :
    offer ⟨some p, t⟩ c = if t < effOf c then ⟨some c.1, effOf c⟩ else ⟨some p, t⟩ := by
  simp only [offer, update_latest_file]
  by_cases h : t < effOf c
  · have hc : some p = none ∨ effTime c.2.1 c.2.2 > t := Or.inr h
    rw [if_pos hc, if_pos h]
    simp [effOf]
  · have hc : ¬(some p = none ∨ effTime c.2.1 c.2.2 > t) := by
      rintro (h' | h')
      · exact Option.noConfusion h'
      · exact h h'
    rw [if_neg hc, if_neg h]

theorem offerAll_cons (l : LatestFileInfo) (c : Cand) (cs : List Cand) :
    offerAll l (c :: cs) = offerAll (offer l c) cs := rfl

theorem runMax_cons (t : Int) (c : Cand) (cs : List Cand) :
    runMax t (c :: cs) = runMax (max t (effOf c)) cs := rfl

theorem le_runMax (cs : List Cand) : ∀ t : Int, t ≤ runMax t cs := by
  induction cs with
  | nil => exact fun t => le_refl t
  | cons c cs ih => exact fun t => le_trans (le_max_left _ _) (ih _)

theorem offerAll_time (cs : List Cand) :
    ∀ (p : String) (t : Int), (offerAll ⟨some p, t⟩ cs).time = runMax t cs := by
  induction cs with
  | nil => exact fun p t => rfl
  | cons c cs ih =>
    intro p t
    rw [offerAll_cons, offer_some, runMax_cons]
    by_cases h : t < effOf c
    · rw [if_pos h, max_eq_right h.le]
      exact ih c.1 (effOf c)
    · rw [if_neg h, max_eq_left (not_lt.1 h)]
      exact ih p t

theorem offerAll_isSome (cs : List Cand) :
    ∀ (p : String) (t : Int), ∃ q, (offerAll ⟨some p, t⟩ cs).path = some q := by
  induction cs with
  | nil => exact fun p t => ⟨p, rfl⟩
  | cons c cs ih =>
    intro p t
    rw [offerAll_cons, offer_some]
    by_cases h : t < effOf c
    · rw [if_pos h]; exact ih c.1 (effOf c)
    · rw [if_neg h]; exact ih p t

theorem offerAll_path (cs : List Cand) :
    ∀ (p : String) (t : Int),
      (offerAll ⟨some p, t⟩ cs).path =
        if t < runMax t cs then (cs.find? fun c => effOf c == runMax t cs).map Prod.fst
        else some p := by
  induction cs with
  | nil =>
    intro p t
    simp [offerAll, runMax]
  | cons c cs ih =>
    intro p t
    rw [offerAll_cons, offer_some]
    have hm : runMax t (c :: cs) = runMax (max t (effOf c)) cs := runMax_cons t c cs
    by_cases h : t < effOf c
    · rw [if_pos h, ih c.1 (effOf c), hm, max_eq_right h.le]
      have hle : effOf c ≤ runMax (effOf c) cs := le_runMax cs (effOf c)
      by_cases he : effOf c = runMax (effOf c) cs
      · rw [if_neg (by omega), if_pos (by omega),
          List.find?_cons_of_pos _ (by simpa using he)]
        simp
      · have hlt : effOf c < runMax (effOf c) cs := lt_of_le_of_ne hle he
        rw [if_pos hlt, if_pos (h.trans_le hle),
          List.find?_cons_of_neg _ (by simpa using he)]
    · have hle' : effOf c ≤ t := not_lt.1 h
      rw [if_neg h, ih p t, hm, max_eq_left hle']
      by_cases h2 : t < runMax t cs
      · rw [if_pos h2, if_pos h2,
          List.find?_cons_of_neg _ (by simp; omega)]
      · rw [if_neg h2, if_neg h2]

theorem offerAll_from_empty (c0 : Cand) (cs : List Cand) :
    offerAll latestEmpty (c0 :: cs) = offerAll ⟨some c0.1, effOf c0⟩ cs := by
  rw [show (latestEmpty : LatestFileInfo) = ⟨none, 0⟩ from rfl, offerAll_cons, offer_none]

/-! ## Helper lemmas about the substring search -/

theorem isPrefixOf_true_iff (l₁ l₂ : List Char) : l₁.isPrefixOf l₂ = true ↔ l₁ <+: l₂ := by
  simp

theorem strstr_found_iff (hay needle : List Char) :
    strstr_found hay needle = true ↔ needle <:+: hay := by
  induction hay with
  | nil => cases needle <;> simp [strstr_found]
  | cons c hay ih =>
    rw [strstr_found, Bool.or_eq_true, isPrefixOf_true_iff, ih, ← List.infix_cons_iff]

/-! ## Claim theorems -/

/-- C3: starting from the empty accumulator, after any nonempty finite
sequence of candidates is offered to `update_latest_file`, the accumulator's
`time` is the maximum effective time among the offered candidates and its
`path` is the path of the first-offered candidate achieving that maximum
(first-seen-wins, because replacement requires strictly greater time);
moreover offering a candidate whose effective time is at most the current
best of a non-empty accumulator leaves the state unchanged. -/
theorem C3_accumulator_invariant (cs : List Cand) (h : cs ≠ []) :
    (offerAll latestEmpty cs).time = maxEff cs
    ∧ (offerAll latestEmpty cs).path
        = (cs.find? fun c => effOf c == maxEff cs).map Prod.fst
    ∧ ∀ (l : LatestFileInfo) (c : Cand),
        l.path ≠ none → effOf c ≤ l.time → offer l c = l := by
  obtain ⟨c0, cs', rfl⟩ := List.exists_cons_of_ne_nil h
  refine ⟨?_, ?_, ?_⟩
  · rw [offerAll_from_empty, offerAll_time]
    rfl
  · rw [offerAll_from_empty, offerAll_path]
    have hM : maxEff (c0 :: cs') = runMax (effOf c0) cs' := rfl
    have hle : effOf c0 ≤ runMax (effOf c0) cs' := le_runMax cs' (effOf c0)
    by_cases he : effOf c0 = runMax (effOf c0) cs'
    · rw [if_neg (by omega), hM, List.find?_cons_of_pos _ (by simpa using he)]
      rfl
    · have hlt : effOf c0 < runMax (effOf c0) cs' := lt_of_le_of_ne hle he
      rw [if_pos hlt, hM, List.find?_cons_of_neg _ (by simpa using he)]
  · intro l c hp hle
    match l, hp with
    | ⟨some p, t⟩, _ =>
      rw [offer_some, if_neg (not_lt.2 hle)]

/-- C3 witness: a concrete run of the accumulator over three candidates;
the maximum effective time is `5` and the first candidate achieving it is
`"b"`. -/
theorem C3_accumulator_invariant_witness :
    (offerAll latestEmpty [("a", 1, 2), ("b", 0, 5), ("c", 5, 0)]).time = 5
    ∧ (offerAll latestEmpty [("a", 1, 2), ("b", 0, 5), ("c", 5, 0)]).path = some "b" := by
  have h := C3_accumulator_invariant [("a", 1, 2), ("b", 0, 5), ("c", 5, 0)] (by decide)
  exact ⟨by rw [h.1]; decide, by rw [h.2.1]; decide⟩

/-- C8: if the `malloc` inside `update_latest_file` fails while a new best
path is being recorded, the operation reports the error (second component
`true`) and the previously stored `(path, time)` pair is left completely
unchanged — no half-constructed replacement is ever adopted. -/
theorem C8_alloc_failure_preserves_best (l : LatestFileInfo) (p : String) (c m : Int) :
    (update_latest_file l p c m false).1 = l
    ∧ (l.path = none ∨ effTime c m > l.time →
        (update_latest_file l p c m false).2 = true) := by
  simp only [update_latest_file]
  by_cases h : l.path = none ∨ effTime c m > l.time
  · rw [if_pos h]
    exact ⟨rfl, fun _ => rfl⟩
  · rw [if_neg h]
    exact ⟨rfl, fun h2 => absurd h2 h⟩

/-- C8 witness: a failing allocation on the very first candidate leaves the
empty accumulator empty and reports the error. -/
theorem C8_alloc_failure_preserves_best_witness :
    (update_latest_file latestEmpty "x" 1 2 false).1 = latestEmpty
    ∧ (update_latest_file latestEmpty "x" 1 2 false).2 = true :=
  ⟨(C8_alloc_failure_preserves_best latestEmpty "x" 1 2).1,
   (C8_alloc_failure_preserves_best latestEmpty "x" 1 2).2 (Or.inl rfl)⟩

/-- C9 counterexample: the claim that a configured empty exclusion pattern
excludes nothing is false.  `strstr(name, "")` always succeeds, so with
`-e ""` configured `is_excluded` returns `true` for every name and the only
file in the tree is excluded: the walk ends with an empty accumulator. -/
theorem C9_empty_pattern_excludes_everything :
    is_excluded "a" "" = true
    ∧ ((recurse_dir "root" true [FSEntry.file "a" (some (0, 5))]
        ⟨"root", none, some "", false⟩ initState).1).latest = latestEmpty := by
  decide

/-- C9 amended: an entry is excluded exactly when the configured pattern
occurs as a contiguous literal substring of the entry's name (no glob or
regex semantics); when no pattern is configured (`NULL`, i.e. `none`) the
filter is never invoked and nothing is excluded; but the empty string, when
actually configured as the pattern, occurs in every name and therefore
excludes every entry. -/
theorem C9_amended_substring_filter :
    (∀ name pat : String, is_excluded name pat = true ↔ pat.data <:+: name.data)
    ∧ (∀ (opts : ProgramOptions) (name : String),
        opts.excludePattern = none → nameSkip opts name = false)
    ∧ (∀ name : String, is_excluded name "" = true) := by
  refine ⟨fun name pat => strstr_found_iff name.data pat.data,
    fun opts name h => by simp [nameSkip, h],
    fun name => (strstr_found_iff name.data "".data).2 ⟨[], name.data, rfl⟩⟩

/-- C9 amended witness: with no pattern configured nothing is skipped, and
the pattern `"b"` is found inside the name `"abc"`. -/
theorem C9_amended_substring_filter_witness :
    nameSkip ⟨"r", none, none, false⟩ "x" = false ∧ is_excluded "abc" "b" = true :=
  ⟨C9_amended_substring_filter.2.1 ⟨"r", none, none, false⟩ "x" rfl,
   (C9_amended_substring_filter.1 "abc" "b").2 ⟨['a'], ['c'], by decide⟩⟩

/-- C1 (code bug): with a cutoff configured (here the parsed cutoff
timestamp `100`), line 141 of `src/main.c` skips an entry exactly when
`is_after_date(st_mtime, cutoff)` holds, i.e. when the modification time is
at-or-after the cutoff — the opposite of the claim (and of the source's own
comment "if the file is older than the cutoff date, skip it"), and it tests
`st_mtime` alone instead of the effective time.  Concretely: the file
`"new"` with `st_mtime = 200 ≥ 100` is excluded from candidacy while the
file `"old"` with effective time `50 < 100` is kept and becomes the best
match. -/
theorem C1_cutoff_filter_inverted :
    ((recurse_dir "root" true
        [FSEntry.file "new" (some (0, 200)), FSEntry.file "old" (some (0, 50))]
        ⟨"root", some 100, none, false⟩ initState).1).latest
      = ⟨some "root\\old", 50⟩ := by
  decide

/-- C2 counterexample: a directory whose name matches the exclusion pattern
is not recursed into.  The directory `"skipme"` (pattern `"skip"`) contains
the newest file of the whole tree, yet the walk never enters it
(`entered` stays `["root"]`) and ends with an empty accumulator, falsifying
"the walker recurses into every visited directory regardless of filter
outcome". -/
theorem C2_filtered_dir_not_traversed :
    ((recurse_dir "root" true
        [FSEntry.dir "skipme" (some (0, 0)) true [FSEntry.file "newest" (some (0, 999))]]
        ⟨"root", none, some "skip", false⟩ initState).1).latest = latestEmpty
    ∧ ((recurse_dir "root" true
        [FSEntry.dir "skipme" (some (0, 0)) true [FSEntry.file "newest" (some (0, 999))]]
        ⟨"root", none, some "skip", false⟩ initState).1).entered = ["root"] := by
  decide

/-- C2 amended: a directory entry removed from candidacy by the cutoff-date
filter or by the exclusion filter is skipped entirely — the `continue` at
lines 142/147 of `src/main.c` also skips the recursion — so the walk state
is completely unchanged by such an entry; only a directory entry that
passes both filters is offered to the accumulator and then recursed into. -/
theorem C2_amended_filtered_dirs_skipped (base n : String) (c m : Int) (ok : Bool)
    (cs : List FSEntry) (opts : ProgramOptions) (st : WalkState)
    (hn1 : n ≠ ".") (hn2 : n ≠ "..") :
    (dateSkip opts m = true ∨ nameSkip opts n = true →
      recurse_entry base opts st (.dir n (some (c, m)) ok cs) = st)
    ∧ (dateSkip opts m = false → nameSkip opts n = false →
      recurse_entry base opts st (.dir n (some (c, m)) ok cs)
        = (recurse_dir (joinPath base n) ok cs opts
            { st with latest := (update_latest_file st.latest (joinPath base n) c m true).1 }).1) := by
  constructor
  · intro h
    rcases h with h | h
    · simp [recurse_entry, hn1, hn2, h]
    · cases hd : dateSkip opts m <;> simp [recurse_entry, hn1, hn2, h, hd]
  · intro h1 h2
    cases ok <;> simp [recurse_entry, recurse_dir, hn1, hn2, h1, h2]

/-- C2 amended witness: a directory whose name matches the configured
pattern leaves the walk state untouched, and with no filters configured the
same directory entry is accumulated and recursed into. -/
theorem C2_amended_filtered_dirs_skipped_witness :
    recurse_entry "r" ⟨"r", none, some "d", false⟩ initState
        (FSEntry.dir "d" (some (1, 2)) true []) = initState
    ∧ recurse_entry "r" ⟨"r", none, none, false⟩ initState
        (FSEntry.dir "d" (some (1, 2)) true [])
      = (recurse_dir (joinPath "r" "d") true [] ⟨"r", none, none, false⟩
          { initState with
              latest := (update_latest_file initState.latest (joinPath "r" "d") 1 2 true).1 }).1 :=
  ⟨(C2_amended_filtered_dirs_skipped "r" "d" 1 2 true [] ⟨"r", none, some "d", false⟩
      initState (by decide) (by decide)).1 (Or.inr (by decide)),
   (C2_amended_filtered_dirs_skipped "r" "d" 1 2 true [] ⟨"r", none, none, false⟩
      initState (by decide) (by decide)).2 (by decide) (by decide)⟩

/-- C4 counterexample: the printed-path case is not independent of the
candidate's timestamp.  A walk that accumulates the single qualifying
candidate `"root\a"` with effective time `0` (the epoch) ends with
`latest.path != NULL` but `latest.time == 0`, so the guard at line 175 of
`src/main.c` fails and `main` prints the no-file-found message even though
a qualifying candidate exists. -/
theorem C4_epoch_candidate_not_reported :
    (main_run true [FSEntry.file "a" (some (0, 0))] ⟨"root", none, none, false⟩).2.2.latest.path
        = some "root\\a"
    ∧ (main_run true [FSEntry.file "a" (some (0, 0))] ⟨"root", none, none, false⟩).1 = none := by
  decide

/-- C4 amended: after the candidates seen by the walk have been folded into
the accumulator, `main` prints the best match's path and time exactly when
at least one candidate was offered AND the maximum effective time among the
offered candidates is nonzero; a best candidate whose effective time is
exactly `0` produces the no-file-found message instead. -/
theorem C4_amended_report_condition (cs : List Cand) :
    prints_path (offerAll latestEmpty cs) = true ↔ cs ≠ [] ∧ maxEff cs ≠ 0 := by
  cases cs with
  | nil => simp [prints_path, offerAll, latestEmpty]
  | cons c0 cs' =>
    rw [offerAll_from_empty]
    obtain ⟨q, hq⟩ := offerAll_isSome cs' c0.1 (effOf c0)
    have ht := offerAll_time cs' c0.1 (effOf c0)
    have hM : maxEff (c0 :: cs') = runMax (effOf c0) cs' := rfl
    simp [prints_path, hq, ht, hM]

/-- C5 counterexample: the walker does not join paths with the platform's
path separator.  The source is written against the POSIX directory API
(`dirent.h`, `sys/stat.h`), whose separator is `/`, yet line 132 joins with
the literal `"%s\\%s"` format: the constructed path differs from the
platform-separator join. -/
theorem C5_separator_counterexample :
    joinPath "a" "b" ≠ joinPath_spec '/' "a" "b" := by
  decide

/-- C5 amended: for every visited entry the walker constructs the full path
by joining the parent path and the entry name with the hard-coded backslash
character (the `"%s\\%s"` format of line 132), regardless of platform:
whenever the joined path fits the buffer, the result is exactly the
backslash join. -/
theorem C5_amended_hardcoded_backslash (base name : String)
    (h : base.length + 1 + name.length ≤ 1023) :
    joinPath base name = joinPath_spec '\\' base name := by
  apply String.ext
  have hb : base.length = base.data.length := rfl
  have hn : name.length = name.data.length := rfl
  have hlen : (base.data ++ '\\' :: name.data).length ≤ 1023 := by
    simp only [List.length_append, List.length_cons]
    omega
  show (base.data ++ '\\' :: name.data).take 1023 = _
  rw [List.take_of_length_le hlen]
  simp [joinPath_spec]

/-- C5 amended witness: a concrete backslash join that fits the buffer. -/
theorem C5_amended_hardcoded_backslash_witness :
    joinPath "a" "b" = joinPath_spec '\\' "a" "b" :=
  C5_amended_hardcoded_backslash "a" "b" (by decide)

/-- C6 (code bug): invoking the help flag makes `parse_options` print usage
and return `0`, but line 169 of `src/main.c` reads
`return result = 0 ? 0 : 1;`, which C precedence parses as
`return (result = (0 ? 0 : 1));` — it assigns `1` and returns `1` — so the
program exits with status `1` for `-h`, not `0` as the claim states. -/
theorem C6_help_flag_exits_nonzero :
    (parse_options [CliTok.h] cliInit).1 = 0 ∧ main_exit [CliTok.h] = 1 := by
  decide

/-- C7: a directory entry whose `opendir` fails is handled locally: the
walk result does not depend on the unreadable subtree's contents, the
diagnostic naming the failed path is appended to the log, the accumulator
is exactly as it was after offering the directory entry itself (the subtree
contributed nothing), the remaining sibling entries are still processed
from that state, and the overall exit status of `main` is `0` regardless. -/
theorem C7_open_failure_local (base n : String) (c m : Int) (cs cs' es : List FSEntry)
    (opts : ProgramOptions) (st : WalkState)
    (hn1 : n ≠ ".") (hn2 : n ≠ "..")
    (h1 : dateSkip opts m = false) (h2 : nameSkip opts n = false) :
    recurse_entry base opts st (.dir n (some (c, m)) false cs)
      = recurse_entry base opts st (.dir n (some (c, m)) false cs')
    ∧ (recurse_entry base opts st (.dir n (some (c, m)) false cs)).log
      = st.log ++ ["Error: Cannot open " ++ joinPath base n]
    ∧ (recurse_entry base opts st (.dir n (some (c, m)) false cs)).latest
      = (update_latest_file st.latest (joinPath base n) c m true).1
    ∧ recurse_entries base opts st (FSEntry.dir n (some (c, m)) false cs :: es)
      = recurse_entries base opts
          (recurse_entry base opts st (FSEntry.dir n (some (c, m)) false cs)) es
    ∧ ∀ (ok : Bool) (rs : List FSEntry) (o : ProgramOptions),
        (main_run ok rs o).2.1 = 0 := by
  refine ⟨?_, ?_, ?_, rfl, fun ok rs o => rfl⟩
  all_goals simp [recurse_entry, hn1, hn2, h1, h2]

/-- C7 witness: a concrete unreadable directory: the diagnostic names its
path and the sibling-processing step is literally the loop step. -/
theorem C7_open_failure_local_witness :
    (recurse_entry "r" ⟨"r", none, none, false⟩ initState
        (FSEntry.dir "d" (some (1, 2)) false [FSEntry.file "z" (some (9, 9))])).log
      = ["Error: Cannot open " ++ joinPath "r" "d"] := by
  have h := C7_open_failure_local "r" "d" 1 2 [FSEntry.file "z" (some (9, 9))] [] []
    ⟨"r", none, none, false⟩ initState (by decide) (by decide) (by decide) (by decide)
  rw [h.2.1]
  rfl

/-- C10: every full path the walker builds is `snprintf`-truncated to the
1023 characters that fit the fixed 1024-byte buffer: the joined path never
exceeds 1023 characters; when the join fits it is exact; when it would
exceed the buffer it is silently cut to exactly 1023 characters — a prefix
of the untruncated join, not a rejection — and an entry is then processed
(offered to the accumulator) under that truncated path. -/
theorem C10_path_buffer_truncation (base name : String) :
    (joinPath base name).length ≤ 1023
    ∧ (base.length + 1 + name.length ≤ 1023 →
        joinPath base name = base ++ "\\" ++ name)
    ∧ (1023 < base.length + 1 + name.length →
        (joinPath base name).length = 1023
        ∧ (joinPath base name).data <+: (base ++ "\\" ++ name).data)
    ∧ ∀ (opts : ProgramOptions) (st : WalkState) (c m : Int),
        name ≠ "." → name ≠ ".." → dateSkip opts m = false → nameSkip opts name = false →
        recurse_entry base opts st (.file name (some (c, m)))
          = { st with
              latest := (update_latest_file st.latest (joinPath base name) c m true).1 } := by
  have hb : base.length = base.data.length := rfl
  have hn : name.length = name.data.length := rfl
  have h1 : (joinPath base name).length = min 1023 (base.data ++ '\\' :: name.data).length := by
    show ((base.data ++ '\\' :: name.data).take 1023).length = _
    rw [List.length_take]
  have hL : (base.data ++ '\\' :: name.data).length = base.data.length + 1 + name.data.length := by
    simp only [List.length_append, List.length_cons]
    omega
  have hdata : (base ++ "\\" ++ name).data = base.data ++ '\\' :: name.data := by
    simp
  refine ⟨?_, ?_, fun h => ⟨?_, ?_⟩, ?_⟩
  · rw [h1]
    exact min_le_left _ _
  · intro h
    apply String.ext
    have hlen : (base.data ++ '\\' :: name.data).length ≤ 1023 := by omega
    show (base.data ++ '\\' :: name.data).take 1023 = _
    rw [List.take_of_length_le hlen, hdata]
  · rw [h1, hL]
    omega
  · rw [hdata]
    exact ⟨(base.data ++ '\\' :: name.data).drop 1023, List.take_append_drop _ _⟩
  · intro opts st c m hn1 hn2 hd1 hd2
    simp [recurse_entry, hn1, hn2, hd1, hd2]

set_option maxRecDepth 10000 in
/-- C10 witness: a short join is exact, a join of an 1100-character base
path is cut to 1023 characters, and a concrete file entry is accumulated
under the joined path. -/
theorem C10_path_buffer_truncation_witness :
    joinPath "a" "b" = "a" ++ "\\" ++ "b"
    ∧ (joinPath ⟨List.replicate 1100 'a'⟩ "b").length = 1023
    ∧ recurse_entry "r" ⟨"r", none, none, false⟩ initState (FSEntry.file "f" (some (1, 2)))
      = { initState with
          latest := (update_latest_file initState.latest (joinPath "r" "f") 1 2 true).1 } :=
  ⟨(C10_path_buffer_truncation "a" "b").2.1 (by decide),
   ((C10_path_buffer_truncation ⟨List.replicate 1100 'a'⟩ "b").2.2.1 (by decide)).1,
   (C10_path_buffer_truncation "r" "f").2.2.2 ⟨"r", none, none, false⟩ initState 1 2
     (by decide) (by decide) (by decide) (by decide)⟩

end DirTool
